import Mathlib

/-!
Verification of the SwiftyZorb HTS settings record and its wire codec.

The repository source (src/SwiftyZorb/Internal/Headers/hts_settings.h)
declares the data layout only: a C struct `hts_settings` of three
`uint8_t` fields, and a union `hts_settings_data` aliasing that struct
with a byte array `bytes[sizeof(hts_settings)]` (three bytes, since the
struct packs three one-byte fields with no padding). The encode and
decode operations themselves are not present in the source; they are
modelled here from the specification of the SettingsRecord codec.
-/

/-- A single byte, modelling the C type `uint8_t`. -/
abbrev Byte := Fin 256

/-- The Haptic Timeline Service settings structure, embedded from the C
struct `hts_settings` in hts_settings.h: three one-byte fields, declared
in the order wrist_orientation, pair_button_orientation,
intensity_level. -/
structure hts_settings where
  wrist_orientation : Byte
  pair_button_orientation : Byte
  intensity_level : Byte
deriving DecidableEq, Repr

/-- A record is in range when each field lies in its documented
enumeration: wrist_orientation and pair_button_orientation in \x7b0, 1\x7d
and intensity_level in \x7b0, 1, 2\x7d. -/
def hts_settings.valid (r : hts_settings) : Prop :=
  r.wrist_orientation.val ≤ 1 ∧
  r.pair_button_orientation.val ≤ 1 ∧
  r.intensity_level.val ≤ 2

instance (r : hts_settings) : Decidable r.valid := by
  unfold hts_settings.valid
  infer_instance

/-- Error taxonomy of the codec. LengthMismatch is raised when the input
buffer for decode is not exactly 3 bytes. -/
inductive CodecError where
  | LengthMismatch
deriving DecidableEq, Repr

/-- Modelled from the spec: `encode(record) -> bytes[3]` is not a function
in the provided source (the union `hts_settings_data` aliases the struct
with its byte array); the spec defines it as producing the 3-byte
sequence [wrist_orientation, pair_button_orientation, intensity_level],
passing field values through verbatim with no validation. -/
def encode (r : hts_settings) : List Byte :=
  [r.wrist_orientation, r.pair_button_orientation, r.intensity_level]

/-- Modelled from the spec: `decode(bytes[3]) -> record` is not a function
in the provided source; the spec defines it as mapping byte 0 to
wrist_orientation, byte 1 to pair_button_orientation, byte 2 to
intensity_level, verbatim with no enumeration-membership check, and
failing with LengthMismatch when the input is not exactly 3 bytes. -/
def decode (bs : List Byte) : Except CodecError hts_settings :=
  match bs with
  | [b0, b1, b2] => Except.ok ⟨b0, b1, b2⟩
  | _ => Except.error CodecError.LengthMismatch

/-- C1: for every valid SettingsRecord r, decoding the 3-byte wire form
produced by encode yields r back, equal in every field. -/
theorem decode_encode_roundtrip (r : hts_settings) (h : r.valid) :
    decode (encode r) = Except.ok r := by
  cases r
  rfl

/-- Witness for C1 at the concrete record (0, 1, 2). -/
theorem decode_encode_roundtrip_witness :
    decode (encode ⟨0, 1, 2⟩) = Except.ok (⟨0, 1, 2⟩ : hts_settings) :=
  decode_encode_roundtrip ⟨0, 1, 2⟩ (by decide)

/-- C2: for every valid SettingsRecord r, encode r produces a byte
sequence of length exactly 3. -/
theorem encode_length (r : hts_settings) (h : r.valid) :
    (encode r).length = 3 := by
  rfl

/-- Witness for C2 at the concrete record (1, 0, 2). -/
theorem encode_length_witness :
    (encode ⟨1, 0, 2⟩).length = 3 :=
  encode_length ⟨1, 0, 2⟩ (by decide)

/-- C3: encode places the fields in the fixed order wrist_orientation,
pair_button_orientation, intensity_level: byte 0, 1 and 2 of the output
are the respective fields, and in particular encoding the record with
wrist 0, pair 1, intensity 2 yields the bytes [0, 1, 2]. -/
theorem encode_field_order (r : hts_settings) :
    (encode r).get ⟨0, by simp [encode]⟩ = r.wrist_orientation ∧
    (encode r).get ⟨1, by simp [encode]⟩ = r.pair_button_orientation ∧
    (encode r).get ⟨2, by simp [encode]⟩ = r.intensity_level ∧
    encode ⟨0, 1, 2⟩ = [0, 1, 2] :=
  ⟨rfl, rfl, rfl, rfl⟩

/-- C4: every exactly-3-byte input decodes successfully and verbatim,
with no enumeration-membership check: the result has wrist_orientation
b0, pair_button_orientation b1, intensity_level b2; in particular
[1, 1, 2] and the out-of-range [9, 9, 9] both decode without error. -/
theorem decode_verbatim (b0 b1 b2 : Byte) :
    decode [b0, b1, b2] = Except.ok ⟨b0, b1, b2⟩ ∧
    decode [1, 1, 2] = Except.ok (⟨1, 1, 2⟩ : hts_settings) ∧
    decode [9, 9, 9] = Except.ok (⟨9, 9, 9⟩ : hts_settings) :=
  ⟨rfl, rfl, rfl⟩

/-- C5: decode fails with LengthMismatch exactly when the input does not
have length 3; in particular the 2-byte input [0, 1] and the 4-byte
input [0, 1, 2, 3] fail with LengthMismatch. -/
theorem decode_length_mismatch_iff (bs : List Byte) :
    (decode bs = Except.error CodecError.LengthMismatch ↔ bs.length ≠ 3) ∧
    decode [0, 1] = Except.error CodecError.LengthMismatch ∧
    decode [0, 1, 2, 3] = Except.error CodecError.LengthMismatch := by
  refine ⟨?_, rfl, rfl⟩
  match bs with
  | [] => simp [decode]
  | [_] => simp [decode]
  | [_, _] => simp [decode]
  | [_, _, _] => simp [decode]
  | _ :: _ :: _ :: _ :: _ => simp [decode]

/-- C6: encode never fails for in-range input: for every record whose
fields lie within their documented enumerations, encode returns a
result (it is a total function in this model, raising no error) and
that result is a 3-byte sequence. -/
theorem encode_total_in_range (r : hts_settings) (h : r.valid) :
    ∃ bs : List Byte, encode r = bs ∧ bs.length = 3 :=
  ⟨encode r, rfl, rfl⟩

/-- Witness for C6 at the concrete record (1, 1, 2). -/
theorem encode_total_in_range_witness :
    ∃ bs : List Byte, encode (⟨1, 1, 2⟩ : hts_settings) = bs ∧ bs.length = 3 :=
  encode_total_in_range ⟨1, 1, 2⟩ (by decide)

/-- C7: a LengthMismatch failure of decode is atomic: on any input of
length other than 3, decode returns exactly the error and no partial
SettingsRecord is produced (no ok result exists). -/
theorem decode_failure_atomic (bs : List Byte) (h : bs.length ≠ 3) :
    decode bs = Except.error CodecError.LengthMismatch ∧
    ∀ r : hts_settings, decode bs ≠ Except.ok r := by
  have herr : decode bs = Except.error CodecError.LengthMismatch := by
    match bs, h with
    | [], _ => rfl
    | [_], _ => rfl
    | [_, _], _ => rfl
    | [_, _, _], h => exact absurd rfl h
    | _ :: _ :: _ :: _ :: _, _ => rfl
  exact ⟨herr, fun r hok => by rw [herr] at hok; exact Except.noConfusion hok⟩

/-- Witness for C7 at the concrete 2-byte input [0, 1]. -/
theorem decode_failure_atomic_witness :
    decode [0, 1] = Except.error CodecError.LengthMismatch ∧
    ∀ r : hts_settings, decode [0, 1] ≠ Except.ok r :=
  decode_failure_atomic [0, 1] (by decide)

/-- C8: encode and decode are deterministic pure functions: equal inputs
always produce equal outputs, the output depending on nothing but the
input. -/
theorem codec_deterministic (r1 r2 : hts_settings) (bs1 bs2 : List Byte)
    (hr : r1 = r2) (hb : bs1 = bs2) :
    encode r1 = encode r2 ∧ decode bs1 = decode bs2 :=
  ⟨hr ▸ rfl, hb ▸ rfl⟩

/-- Witness for C8 at the concrete record (0, 0, 0) and input [1, 1, 2]. -/
theorem codec_deterministic_witness :
    encode (⟨0, 0, 0⟩ : hts_settings) = encode ⟨0, 0, 0⟩ ∧
    decode [1, 1, 2] = decode [1, 1, 2] :=
  codec_deterministic ⟨0, 0, 0⟩ ⟨0, 0, 0⟩ [1, 1, 2] [1, 1, 2] rfl rfl

/-- C9: inverse round-trip: decoding any exactly-3-byte buffer and
re-encoding the resulting record reproduces the original bytes exactly,
including bytes outside the documented enumerations. -/
theorem encode_decode_roundtrip (b0 b1 b2 : Byte) :
    (decode [b0, b1, b2]).map encode = Except.ok [b0, b1, b2] :=
  rfl

/-- C10: encode is injective over all records, in-range or not: records
producing the same wire bytes are equal, so the encoding loses no
information. -/
theorem encode_injective (r1 r2 : hts_settings)
    (h : encode r1 = encode r2) : r1 = r2 := by
  cases r1
  cases r2
  simp only [encode, List.cons.injEq, and_true] at h
  obtain ⟨h0, h1, h2⟩ := h
  simp_all

/-- Witness for C10 at the concrete record (0, 1, 2) against itself. -/
theorem encode_injective_witness :
    (⟨0, 1, 2⟩ : hts_settings) = ⟨0, 1, 2⟩ :=
  encode_injective ⟨0, 1, 2⟩ ⟨0, 1, 2⟩ rfl
